import Mathlib

/-!
Shallow embedding of `src/bot.py` (ScrappyTheBot): a pipeline that fetches
image posts from Reddit communities, filters them by recency / score /
file suffix, publishes them to a Telegram channel, and records posted URLs
in a JSON file that is reset on each new UTC day.

External effects (current UTC clock, Reddit API, HTTP GET, Telegram send,
file-system write success) are modelled by an explicit environment `Env`;
each pipeline run additionally produces a trace of `Event`s so that
ordering ("save only after confirmed send") and counting ("each URL sent
at most once") properties can be stated.
-/

namespace ScrappyBot

/-- A UTC calendar date, as produced by `datetime.now(UTC)`. -/
structure Date where
  year : Nat
  month : Nat
  day : Nat
deriving DecidableEq, Repr

/-- Zero-padding to two digits, as in `strftime`'s `%m` / `%d` fields. -/
def pad2 (n : Nat) : String :=
  if n < 10 then "0" ++ toString n else toString n

/-- `datetime.now(UTC).strftime("%Y-%m-%d")`: the current date rendered
as a `YYYY-MM-DD` string. -/
def Date.format (d : Date) : String :=
  toString d.year ++ "-" ++ pad2 d.month ++ "-" ++ pad2 d.day

/-- One item returned by `subreddit.hot(...)`: the fields of a praw
submission that `fetch_images` reads. -/
structure RPost where
  url : String
  created_utc : Int
  score : Int
deriving DecidableEq, Repr

/-- The JSON object stored in `posted_images.json`: either field may be
absent, in which case `load_posted_images` substitutes a default via
`data.get`. -/
structure StoredJson where
  images : Option (List String)
  date : Option String
deriving DecidableEq, Repr

/-- State of the `posted_images.json` file as `load_posted_images` can
observe it: absent, present but unreadable / unparseable (`IOError` or
`json.JSONDecodeError`), or parsed to a JSON object. -/
inductive FileState where
  | missing
  | unreadable
  | parsed (data : StoredJson)
deriving DecidableEq, Repr

/-- Outcome of `requests.get(image_url, timeout=10)`: either a response
with a status code, or a raised `requests.RequestException`. -/
inductive NetResult where
  | status (code : Nat)
  | netFail
deriving DecidableEq, Repr

/-- Outcome of `bot.send_photo(...)`: success, or a raised exception. -/
inductive SendResult where
  | ok
  | err
deriving DecidableEq, Repr

/-- The external world as the bot observes it during one run.

`today` is the current UTC date (each `datetime.now(UTC)` call in the
source re-reads the clock; modelling them all from one `today` assumes the
run does not straddle a day boundary). `dayStartTs` is the timestamp of
00:00:00 UTC today. `redditInit` is whether `praw.Reddit(...)` succeeded
at startup (`reddit is not None`). `hot` is the Reddit query
(subreddit, limit); it may raise. `get` and `send` are the HTTP
retrievability check and the Telegram send, keyed by URL. `saveOk` is
whether writing `posted_images.json` succeeds. -/
structure Env where
  today : Date
  dayStartTs : Int
  redditInit : Bool
  hot : String → Nat → Except Unit (List RPost)
  get : String → NetResult
  send : String → SendResult
  saveOk : Bool

/-- Observable events of a run, in chronological order. `sendPhoto`'s
flag records whether the Telegram send completed successfully. -/
inductive Event where
  | httpGet (url : String)
  | sendPhoto (url caption : String) (ok : Bool)
  | saveStore (images : List String) (date : String)
  | logWarn (url : String)
  | logErr (url : String)
  | logOk (url : String)
deriving DecidableEq, Repr

/-- `load_posted_images()`: returns `(data.get("images", []),
data.get("date", ""))` on a successful read, and `([], "")` when the file
is missing or reading / parsing fails (the exception is caught and
logged). -/
def load_posted_images (fs : FileState) : List String × String :=
  match fs with
  | .missing => ([], "")
  | .unreadable => ([], "")
  | .parsed data => (data.images.getD [], data.date.getD "")

/-- `save_posted_images(images)`: overwrites the file with
`{"images": images, "date": datetime.now(UTC).strftime("%Y-%m-%d")}`;
the date is re-read from the clock at save time. An `IOError` is caught
and logged; the model keeps the previous file state in that case (a
mid-write failure could also corrupt the file, but no theorem below
relies on the failure branch preserving it). -/
def save_posted_images (env : Env) (images : List String) (fs : FileState) : FileState :=
  if env.saveOk then .parsed ⟨some images, some env.today.format⟩ else fs

/-- `clear_old_images()`: loads the store; if the stored date differs
from the current UTC date, saves an empty list and returns `[]`,
otherwise returns the stored images unchanged without writing. Also
returns the updated file state and the trace of store writes. -/
def clear_old_images (env : Env) (fs : FileState) :
    List String × FileState × List Event :=
  let r := load_posted_images fs
  if r.2 ≠ env.today.format then
    ([], save_posted_images env [] fs, [Event.saveStore [] env.today.format])
  else
    (r.1, fs, [])

/-- Python `url.endswith(t)` for a single suffix: code-point suffix
match, case-sensitive. -/
def strEndsWith (s t : String) : Bool :=
  List.isSuffixOf t.data s.data

/-- The filter of the list comprehension in `fetch_images`:
`post.created_utc >= current_day_start and post.score >= upvote_threshold
and post.url.endswith((".jpg", ".png", ".jpeg"))`. -/
def keepImage (env : Env) (upvote_threshold : Int) (p : RPost) : Bool :=
  decide (env.dayStartTs ≤ p.created_utc) && decide (upvote_threshold ≤ p.score) &&
    (strEndsWith p.url ".jpg" || strEndsWith p.url ".png" || strEndsWith p.url ".jpeg")

/-- `fetch_images(subreddit_name, upvote_threshold, limit)`: returns `[]`
immediately when the Reddit client failed to initialise; otherwise
queries `hot`, keeps the URLs of posts passing `keepImage`, and returns
`[]` if the query raises (the exception is caught and logged). -/
def fetch_images (env : Env) (subreddit_name : String)
    (upvote_threshold : Int) (limit : Nat) : List String :=
  if env.redditInit then
    match env.hot subreddit_name limit with
    | .ok posts => (posts.filter (keepImage env upvote_threshold)).map (fun p => p.url)
    | .error _ => []
  else
    []

/-- `send_image_to_telegram(bot, image_url, caption, posted_images)`:
GET the URL with a bounded timeout; on status 200 send the photo to the
channel; on send success append the URL to the in-memory list and save
the store; on a non-200 status log a warning and return; any raised
exception (transport or Telegram) is caught and logged. Returns the
updated posted list, the updated file state and the event trace. -/
def send_image_to_telegram (env : Env) (image_url caption : String)
    (posted_images : List String) (fs : FileState) :
    List String × FileState × List Event :=
  match env.get image_url with
  | .netFail =>
      (posted_images, fs, [Event.httpGet image_url, Event.logErr image_url])
  | .status code =>
      if code = 200 then
        match env.send image_url with
        | .ok =>
            let p := posted_images ++ [image_url]
            (p, save_posted_images env p fs,
              [Event.httpGet image_url, Event.sendPhoto image_url caption true,
               Event.saveStore p env.today.format, Event.logOk image_url])
        | .err =>
            (posted_images, fs,
              [Event.httpGet image_url, Event.sendPhoto image_url caption false,
               Event.logErr image_url])
      else
        (posted_images, fs, [Event.httpGet image_url, Event.logWarn image_url])

/-- The fixed community list of `post_reddit_images`. -/
def subreddits : List String := ["EarthPorn", "spaceporn", "Art"]

/-- The upvote threshold `post_reddit_images` passes to `fetch_images`. -/
def upvoteThreshold : Int := 1000

/-- The inner loop of `post_reddit_images`: `for img in images: if img
not in posted_images: await send_image_to_telegram(...)`. -/
def processImages (env : Env) (sub : String) :
    List String → List String → FileState → List String × FileState × List Event
  | [], posted, fs => (posted, fs, [])
  | img :: rest, posted, fs =>
      if img ∈ posted then
        processImages env sub rest posted fs
      else
        let r1 := send_image_to_telegram env img ("From r/" ++ sub) posted fs
        let r2 := processImages env sub rest r1.1 r1.2.1
        (r2.1, r2.2.1, r1.2.2 ++ r2.2.2)

/-- The outer loop of `post_reddit_images`: for each subreddit, fetch
(with the run threshold and the default limit 10) and process. -/
def processSubs (env : Env) :
    List String → List String → FileState → List String × FileState × List Event
  | [], posted, fs => (posted, fs, [])
  | sub :: rest, posted, fs =>
      let imgs := fetch_images env sub upvoteThreshold 10
      let r1 := processImages env sub imgs posted fs
      let r2 := processSubs env rest r1.1 r1.2.1
      (r2.1, r2.2.1, r1.2.2 ++ r2.2.2)

/-- `post_reddit_images(...)`: one full run — reset the store on a day
change, then iterate the fixed community list. -/
def post_reddit_images (env : Env) (fs : FileState) :
    List String × FileState × List Event :=
  let r0 := clear_old_images env fs
  let r1 := processSubs env subreddits r0.1 r0.2.1
  (r1.1, r1.2.1, r0.2.2 ++ r1.2.2)

/-- A sequence of runs against the same store file, each with its own
environment; returns the final file state and the concatenated trace. -/
def runDay : List Env → FileState → FileState × List Event
  | [], fs => (fs, [])
  | e :: rest, fs =>
      let r := post_reddit_images e fs
      let r2 := runDay rest r.2.1
      (r2.1, r.2.2 ++ r2.2)

/-- Does this event record a successful channel send of URL `u`? -/
def isSuccessSend (u : String) : Event → Bool
  | .sendPhoto v _ ok => ok && (v == u)
  | _ => false

/-- Number of successful channel sends of URL `u` in a trace. -/
def succCount (tr : List Event) (u : String) : Nat :=
  tr.countP (isSuccessSend u)

/-- Is this event a write of the dedupe store? -/
def isSaveEvent : Event → Bool
  | .saveStore _ _ => true
  | _ => false

/-- Is this event a successful channel send (of any URL)? -/
def isSendSuccessEvent : Event → Bool
  | .sendPhoto _ _ ok => ok
  | _ => false

/-- `savesAfterSend tr seen = true` iff every store write in `tr` is
preceded by a successful channel send (`seen` records whether one has
already occurred). -/
def savesAfterSend : List Event → Bool → Bool
  | [], _ => true
  | e :: rest, seen =>
      match e with
      | .saveStore _ _ => seen && savesAfterSend rest seen
      | .sendPhoto _ _ ok => savesAfterSend rest (seen || ok)
      | _ => savesAfterSend rest seen

/-- URL `u` is recorded in file state `f` for day string `d`: loading `f`
yields an image list containing `u` and the stored date `d`. -/
def Reflects (f : FileState) (d : String) (u : String) : Prop :=
  u ∈ (load_posted_images f).1 ∧ (load_posted_images f).2 = d

/-- The retrievability check and the channel send both succeeded for this
URL: the branch of `send_image_to_telegram` that mutates state. -/
def PubSuccess (env : Env) (u : String) : Prop :=
  env.get u = .status 200 ∧ env.send u = .ok

/-! ### Sample inputs used by the witness theorems -/

/-- A sample current date. -/
def wDate : Date := ⟨2024, 1, 2⟩

/-- A sample hot post passing all three filters. -/
def wPost : RPost := ⟨"https://x/a.jpg", 100, 2000⟩

/-- An environment in which every external operation succeeds. -/
def wEnv : Env :=
  ⟨wDate, 50, true, fun _ _ => .ok [wPost], fun _ => .status 200, fun _ => .ok, true⟩

/-- An environment whose retrievability check returns status 404. -/
def wEnv404 : Env :=
  ⟨wDate, 50, true, fun _ _ => .ok [wPost], fun _ => .status 404, fun _ => .ok, true⟩

/-- An environment whose Reddit client failed to initialise. -/
def wEnvNoReddit : Env :=
  ⟨wDate, 50, false, fun _ _ => .error (), fun _ => .status 200, fun _ => .ok, true⟩

/-! ### Helper lemmas -/

/-- A rendered date is never the empty string (it always contains `-`). -/
theorem Date.format_ne_empty (d : Date) : d.format ≠ "" := by
  intro h
  have h2 := congrArg String.length h
  rw [Date.format] at h2
  simp [String.length_append] at h2
  exact absurd h2.1.2 (by decide)

@[simp]
theorem succCount_nil (u : String) : succCount [] u = 0 := rfl

@[simp]
theorem succCount_append (a b : List Event) (u : String) :
    succCount (a ++ b) u = succCount a u + succCount b u :=
  List.countP_append _ _ _

theorem succCount_cons (e : Event) (tr : List Event) (u : String) :
    succCount (e :: tr) u = succCount tr u + (if isSuccessSend u e = true then 1 else 0) :=
  List.countP_cons _ _ _

/-- The trace of a fully successful publish has exactly one successful
send, of the published URL. -/
theorem succCount_pub_success (img cap u d : String) (p : List String) :
    succCount [Event.httpGet img, Event.sendPhoto img cap true,
      Event.saveStore p d, Event.logOk img] u = if img = u then 1 else 0 := by
  by_cases h : img = u <;> simp [succCount_cons, isSuccessSend, h]

/-- Writing the store with `saveOk` produces a parsed file holding the
given list and the current date. -/
theorem save_posted_images_ok (env : Env) (hs : env.saveOk = true)
    (images : List String) (fs : FileState) :
    save_posted_images env images fs = .parsed ⟨some images, some env.today.format⟩ := by
  simp [save_posted_images, hs]

theorem Reflects_parsed (images : List String) (d u : String) :
    Reflects (.parsed ⟨some images, some d⟩) d u ↔ u ∈ images := by
  simp [Reflects, load_posted_images]

/-- Case analysis of one publisher call: either both network steps
succeeded and the call appended the URL, saved the store and logged
success, or the call left the posted list and the file state unchanged,
with no successful send and no store write in its trace. -/
theorem publish_spec (env : Env) (u cap : String) (posted : List String) (fs : FileState) :
    (PubSuccess env u ∧
      send_image_to_telegram env u cap posted fs =
        (posted ++ [u], save_posted_images env (posted ++ [u]) fs,
          [Event.httpGet u, Event.sendPhoto u cap true,
           Event.saveStore (posted ++ [u]) env.today.format, Event.logOk u])) ∨
    (¬ PubSuccess env u ∧
      (send_image_to_telegram env u cap posted fs).1 = posted ∧
      (send_image_to_telegram env u cap posted fs).2.1 = fs ∧
      (∀ v, succCount (send_image_to_telegram env u cap posted fs).2.2 v = 0) ∧
      savesAfterSend (send_image_to_telegram env u cap posted fs).2.2 false = true) := by
  cases hg : env.get u with
  | netFail =>
      right
      refine ⟨fun hp => by simp [PubSuccess, hg] at hp, ?_, ?_, ?_, ?_⟩ <;>
        simp [send_image_to_telegram, hg, succCount_cons, isSuccessSend, savesAfterSend]
  | status code =>
      by_cases hc : code = 200
      · subst hc
        cases hs : env.send u with
        | ok => exact Or.inl ⟨⟨hg, hs⟩, by simp [send_image_to_telegram, hg, hs]⟩
        | err =>
            right
            refine ⟨fun hp => by simp [hp.2] at hs, ?_, ?_, ?_, ?_⟩ <;>
              simp [send_image_to_telegram, hg, hs, succCount_cons, isSuccessSend,
                savesAfterSend]
      · right
        refine ⟨fun hp => hc (by injection hg.symm.trans hp.1), ?_, ?_, ?_, ?_⟩ <;>
          simp [send_image_to_telegram, hg, hc, succCount_cons, isSuccessSend, savesAfterSend]

/-- Case analysis of `clear_old_images`: keep the stored list without a
write when the stored date matches today, otherwise reset. -/
theorem clear_spec (env : Env) (fs : FileState) :
    ((load_posted_images fs).2 = env.today.format →
      clear_old_images env fs = ((load_posted_images fs).1, fs, [])) ∧
    ((load_posted_images fs).2 ≠ env.today.format →
      clear_old_images env fs =
        ([], save_posted_images env [] fs, [Event.saveStore [] env.today.format])) := by
  constructor <;> intro h <;> simp [clear_old_images, h]

/-- The trace of `clear_old_images` contains no channel sends. -/
theorem clear_no_send (env : Env) (fs : FileState) (u : String) :
    succCount (clear_old_images env fs).2.2 u = 0 := by
  rcases Classical.em ((load_posted_images fs).2 = env.today.format) with h | h
  · rw [(clear_spec env fs).1 h]
    rfl
  · rw [(clear_spec env fs).2 h]
    simp [succCount_cons, isSuccessSend]

/-! ### Claim theorems -/

/-- Claim C7: loading the dedupe store returns an empty list and an empty
date string when the file is missing or unreadable / unparseable (the
model's totality embeds "never raises past its boundary"), and returns
the stored images and date on a successful read (with `data.get`
defaults for absent fields). -/
theorem claim_C7_load_total :
    load_posted_images .missing = ([], "") ∧
    load_posted_images .unreadable = ([], "") ∧
    (∀ imgs d, load_posted_images (.parsed ⟨some imgs, some d⟩) = (imgs, d)) ∧
    (∀ data, load_posted_images (.parsed data) =
      (data.images.getD [], data.date.getD "")) :=
  ⟨rfl, rfl, fun _ _ => rfl, fun _ => rfl⟩

/-- Claim C3: when the stored date equals the current UTC date,
`clear_old_images` returns the stored list unchanged with no store write;
for any other stored date it returns `[]`, writes the store once, and
(when the write succeeds) the persisted file then holds an empty list and
the current UTC date. -/
theorem claim_C3_clear_old_images (env : Env) (fs : FileState) :
    ((load_posted_images fs).2 = env.today.format →
      clear_old_images env fs = ((load_posted_images fs).1, fs, [])) ∧
    ((load_posted_images fs).2 ≠ env.today.format →
      clear_old_images env fs =
        ([], save_posted_images env [] fs, [Event.saveStore [] env.today.format]) ∧
      (env.saveOk = true →
        load_posted_images (clear_old_images env fs).2.1 = ([], env.today.format))) := by
  refine ⟨(clear_spec env fs).1, fun h => ⟨(clear_spec env fs).2 h, fun hs => ?_⟩⟩
  rw [(clear_spec env fs).2 h]
  simp [save_posted_images_ok env hs, load_posted_images]

/-- Witness for C3 at the spec's scenario: stored
`{images: ["https://x/a.jpg"], date: "2024-01-01"}` with current date
`2024-01-02` yields `[]` and a file rewritten to an empty list with the
current date. -/
theorem claim_C3_witness :
    clear_old_images wEnv (.parsed ⟨some ["https://x/a.jpg"], some "2024-01-01"⟩) =
      ([], save_posted_images wEnv []
        (.parsed ⟨some ["https://x/a.jpg"], some "2024-01-01"⟩),
       [Event.saveStore [] wEnv.today.format]) ∧
    load_posted_images
      (clear_old_images wEnv
        (.parsed ⟨some ["https://x/a.jpg"], some "2024-01-01"⟩)).2.1 =
      ([], wEnv.today.format) := by
  have h := (claim_C3_clear_old_images wEnv
    (.parsed ⟨some ["https://x/a.jpg"], some "2024-01-01"⟩)).2 (by decide)
  exact ⟨h.1, h.2 rfl⟩

/-- Claim C9: when the store file is missing or unreadable, the load
returns the empty date string, which can never equal the current UTC
date, so `clear_old_images` takes the reset branch: it returns the empty
list, writes the store, and (when the write succeeds) the file then holds
an empty list and the current date — any same-day history in the
unreadable file is discarded. -/
theorem claim_C9_load_failure_forces_reset (env : Env) (fs : FileState)
    (h : fs = .missing ∨ fs = .unreadable) :
    load_posted_images fs = ([], "") ∧
    (load_posted_images fs).2 ≠ env.today.format ∧
    clear_old_images env fs =
      ([], save_posted_images env [] fs, [Event.saveStore [] env.today.format]) ∧
    (env.saveOk = true →
      load_posted_images (clear_old_images env fs).2.1 = ([], env.today.format)) := by
  have hload : load_posted_images fs = ([], "") := by
    rcases h with h | h <;> rw [h] <;> rfl
  have hne : (load_posted_images fs).2 ≠ env.today.format := by
    rw [hload]
    exact fun h2 => Date.format_ne_empty env.today h2.symm
  refine ⟨hload, hne, (clear_spec env fs).2 hne, fun hs => ?_⟩
  rw [(clear_spec env fs).2 hne]
  simp [save_posted_images_ok env hs, load_posted_images]

/-- Witness for C9 with a missing file: the run starts from an empty
dedupe set and the store is rewritten for today. -/
theorem claim_C9_witness :
    load_posted_images .missing = ([], "") ∧
    (load_posted_images .missing).2 ≠ wEnv.today.format ∧
    clear_old_images wEnv .missing =
      ([], save_posted_images wEnv [] .missing,
       [Event.saveStore [] wEnv.today.format]) ∧
    load_posted_images (clear_old_images wEnv .missing).2.1 =
      ([], wEnv.today.format) := by
  have h := claim_C9_load_failure_forces_reset wEnv .missing (Or.inl rfl)
  exact ⟨h.1, h.2.1, h.2.2.1, h.2.2.2 rfl⟩

/-- Claim C6: a non-success status from the retrievability check makes
the publisher log a warning and return with the posted list and the store
untouched; its trace contains no channel-send event at all. -/
theorem claim_C6_non_success_status_skips (env : Env) (u cap : String)
    (posted : List String) (fs : FileState) (code : Nat)
    (hg : env.get u = .status code) (hc : code ≠ 200) :
    send_image_to_telegram env u cap posted fs =
      (posted, fs, [Event.httpGet u, Event.logWarn u]) ∧
    (∀ v c b, Event.sendPhoto v c b ∉ (send_image_to_telegram env u cap posted fs).2.2) := by
  constructor
  · simp [send_image_to_telegram, hg, hc]
  · intro v c b
    simp [send_image_to_telegram, hg, hc]

/-- Witness for C6 at status 404. -/
theorem claim_C6_witness :
    send_image_to_telegram wEnv404 "https://x/a.jpg" "c" [] .missing =
      ([], .missing,
       [Event.httpGet "https://x/a.jpg", Event.logWarn "https://x/a.jpg"]) :=
  (claim_C6_non_success_status_skips wEnv404 "https://x/a.jpg" "c" [] .missing
    404 rfl (by decide)).1

/-- Claim C5: in every execution of the publisher, every store write in
its trace is preceded by a successful channel send, and neither the
posted list nor the file state changes unless both the retrievability
check and the channel send succeeded. -/
theorem claim_C5_no_save_before_send (env : Env) (u cap : String)
    (posted : List String) (fs : FileState) :
    savesAfterSend (send_image_to_telegram env u cap posted fs).2.2 false = true ∧
    ((send_image_to_telegram env u cap posted fs).1 ≠ posted → PubSuccess env u) ∧
    ((send_image_to_telegram env u cap posted fs).2.1 ≠ fs → PubSuccess env u) := by
  rcases publish_spec env u cap posted fs with ⟨hp, heq⟩ | ⟨_, hp, hfs, _, hsv⟩
  · rw [heq]
    exact ⟨rfl, fun _ => hp, fun _ => hp⟩
  · exact ⟨hsv, fun h => absurd hp h, fun h => absurd hfs h⟩

/-- Witness for C5: in the all-success environment the publisher's trace
satisfies the ordering predicate and the mutation implies send success. -/
theorem claim_C5_witness :
    savesAfterSend
      (send_image_to_telegram wEnv "https://x/a.jpg" "c" [] .missing).2.2 false = true ∧
    PubSuccess wEnv "https://x/a.jpg" :=
  ⟨(claim_C5_no_save_before_send wEnv "https://x/a.jpg" "c" [] .missing).1,
   (claim_C5_no_save_before_send wEnv "https://x/a.jpg" "c" [] .missing).2.1 (by decide)⟩

/-- Claim C4: when the retrievability check returns 200, the channel send
succeeds and the store write succeeds, the file immediately afterwards
contains the URL in its images array and carries the current UTC date
(taken from the clock at save time). -/
theorem claim_C4_persist_after_send (env : Env) (u cap : String)
    (posted : List String) (fs : FileState) (h200 : env.get u = .status 200)
    (hok : env.send u = .ok) (hsave : env.saveOk = true) :
    u ∈ (load_posted_images (send_image_to_telegram env u cap posted fs).2.1).1 ∧
    (load_posted_images (send_image_to_telegram env u cap posted fs).2.1).2 =
      env.today.format := by
  simp [send_image_to_telegram, h200, hok, save_posted_images, hsave, load_posted_images]

/-- Witness for C4 in the all-success environment. -/
theorem claim_C4_witness :
    "https://x/a.jpg" ∈
      (load_posted_images
        (send_image_to_telegram wEnv "https://x/a.jpg" "c" [] .missing).2.1).1 ∧
    (load_posted_images
      (send_image_to_telegram wEnv "https://x/a.jpg" "c" [] .missing).2.1).2 =
      wEnv.today.format :=
  claim_C4_persist_after_send wEnv "https://x/a.jpg" "c" [] .missing rfl rfl rfl

/-- Claim C2: with an initialised client and a successful query, the
fetcher keeps exactly the URLs of items created at or after the start of
the current UTC day, scoring at least the threshold, and whose URL ends
(case-sensitively) in `.jpg`, `.png` or `.jpeg`; every returned URL comes
from such an item. -/
theorem claim_C2_fetch_filter (env : Env) (name : String) (thr : Int)
    (lim : Nat) (posts : List RPost) (hinit : env.redditInit = true)
    (hhot : env.hot name lim = .ok posts) :
    (∀ p ∈ posts, env.dayStartTs ≤ p.created_utc → thr ≤ p.score →
      (strEndsWith p.url ".jpg" || strEndsWith p.url ".png" ||
        strEndsWith p.url ".jpeg") = true →
      p.url ∈ fetch_images env name thr lim) ∧
    (∀ u ∈ fetch_images env name thr lim, ∃ p ∈ posts, p.url = u ∧
      env.dayStartTs ≤ p.created_utc ∧ thr ≤ p.score ∧
      (strEndsWith p.url ".jpg" || strEndsWith p.url ".png" ||
        strEndsWith p.url ".jpeg") = true) := by
  constructor
  · intro p hp h1 h2 h3
    simp only [fetch_images, hinit, if_true, hhot, List.mem_map, List.mem_filter]
    exact ⟨p, ⟨hp, by simp [keepImage, h1, h2, h3]⟩, rfl⟩
  · intro u hu
    simp only [fetch_images, hinit, if_true, hhot, List.mem_map, List.mem_filter] at hu
    obtain ⟨p, ⟨hp, hk⟩, hurl⟩ := hu
    simp only [keepImage, Bool.and_eq_true, decide_eq_true_eq] at hk
    exact ⟨p, hp, hurl, hk.1.1, hk.1.2, hk.2⟩

/-- Witness for C2: a passing item's URL is returned, and the returned
list is exactly the passing URL. -/
theorem claim_C2_witness :
    "https://x/a.jpg" ∈ fetch_images wEnv "EarthPorn" 1000 10 ∧
    (∃ p ∈ [wPost], p.url = "https://x/a.jpg" ∧
      wEnv.dayStartTs ≤ p.created_utc ∧ 1000 ≤ p.score ∧
      (strEndsWith p.url ".jpg" || strEndsWith p.url ".png" ||
        strEndsWith p.url ".jpeg") = true) := by
  have h := claim_C2_fetch_filter wEnv "EarthPorn" 1000 10 [wPost] rfl rfl
  exact ⟨h.1 wPost (by decide) (by decide) (by decide) (by decide),
         h.2 "https://x/a.jpg" (h.1 wPost (by decide) (by decide) (by decide) (by decide))⟩

/-- Claim C8: the fetcher returns `[]` when the Reddit client failed to
initialise and when the community query raises; and its result depends
only on the client state, the day-start timestamp and that community's
own query, so one community's failure cannot affect another's fetch. -/
theorem claim_C8_fetch_errors_empty (env : Env) (name : String) (thr : Int)
    (lim : Nat) :
    (env.redditInit = false → fetch_images env name thr lim = []) ∧
    (env.hot name lim = .error () → fetch_images env name thr lim = []) ∧
    (∀ env2 : Env, env2.redditInit = env.redditInit →
      env2.dayStartTs = env.dayStartTs → env2.hot name lim = env.hot name lim →
      fetch_images env2 name thr lim = fetch_images env name thr lim) := by
  refine ⟨fun h => by simp [fetch_images, h], fun h => ?_, fun env2 h1 h2 h3 => ?_⟩
  · cases hinit : env.redditInit <;> simp [fetch_images, hinit, h]
  · have hk : keepImage env2 thr = keepImage env thr := by
      funext p
      simp [keepImage, h2]
    simp only [fetch_images, h1, h3, hk]

/-- Witness for C8: with an uninitialised client every fetch is empty. -/
theorem claim_C8_witness : fetch_images wEnvNoReddit "EarthPorn" 1000 10 = [] :=
  (claim_C8_fetch_errors_empty wEnvNoReddit "EarthPorn" 1000 10).1 rfl

/-! ### Orchestrator loop invariants -/

/-- The inner publish loop: the posted list only grows, URLs already in
the posted list are never successfully sent again, each URL is
successfully sent at most once, and every successfully sent URL ends up
in the posted list. -/
theorem processImages_basic (env : Env) (sub : String) (imgs : List String) :
    ∀ (posted : List String) (fs : FileState),
    (∀ u, u ∈ posted → u ∈ (processImages env sub imgs posted fs).1) ∧
    (∀ u, u ∈ posted → succCount (processImages env sub imgs posted fs).2.2 u = 0) ∧
    (∀ u, succCount (processImages env sub imgs posted fs).2.2 u ≤ 1) ∧
    (∀ u, 1 ≤ succCount (processImages env sub imgs posted fs).2.2 u →
      u ∈ (processImages env sub imgs posted fs).1) := by
  induction imgs with
  | nil =>
      intro posted fs
      exact ⟨fun u hu => hu, fun u _ => rfl, fun u => by simp [processImages, succCount],
             fun u h => absurd h (by simp [processImages, succCount])⟩
  | cons img rest IH =>
      intro posted fs
      by_cases hmem : img ∈ posted
      · simp only [processImages, if_pos hmem]
        exact IH posted fs
      · simp only [processImages, if_neg hmem]
        rcases publish_spec env img ("From r/" ++ sub) posted fs with
          ⟨hp, heq⟩ | ⟨hnp, hpost, hfs, hcnt, hsv⟩
        · rw [heq]
          obtain ⟨ih1, ih2, ih3, ih4⟩ :=
            IH (posted ++ [img]) (save_posted_images env (posted ++ [img]) fs)
          refine ⟨fun u hu => ih1 u (List.mem_append_left _ hu), fun u hu => ?_,
                  fun u => ?_, fun u h => ?_⟩
          · have h1 : img ≠ u := fun h => hmem (h ▸ hu)
            simp only [succCount_append, succCount_pub_success, if_neg h1,
              ih2 u (List.mem_append_left _ hu)]
          · by_cases hu : img = u
            · subst hu
              have h0 := ih2 img (List.mem_append_right _ (List.mem_singleton_self img))
              simp only [succCount_append, succCount_pub_success, if_pos rfl, h0]
              simp
            · have := ih3 u
              simp only [succCount_append, succCount_pub_success, if_neg hu]
              omega
          · by_cases hu : img = u
            · subst hu
              exact ih1 img (List.mem_append_right _ (List.mem_singleton_self img))
            · simp only [succCount_append, succCount_pub_success, if_neg hu] at h
              exact ih4 u (by omega)
        · rw [hpost, hfs]
          obtain ⟨ih1, ih2, ih3, ih4⟩ := IH posted fs
          refine ⟨ih1, fun u hu => ?_, fun u => ?_, fun u h => ?_⟩
          · simp only [succCount_append, hcnt u, ih2 u hu]
          · have := ih3 u
            simp only [succCount_append, hcnt u]
            omega
          · simp only [succCount_append, hcnt u] at h
            exact ih4 u (by omega)

/-- The inner publish loop with successful store writes: provided every
URL recorded in the store for today is already in the posted list, the
loop preserves recorded URLs, records every URL it successfully sends,
and keeps the recorded URLs inside the posted list. -/
theorem processImages_store (env : Env) (sub : String)
    (hsave : env.saveOk = true) (imgs : List String) :
    ∀ (posted : List String) (fs : FileState),
    (∀ u, Reflects fs env.today.format u → u ∈ posted) →
    (∀ u, Reflects fs env.today.format u →
      Reflects (processImages env sub imgs posted fs).2.1 env.today.format u) ∧
    (∀ u, 1 ≤ succCount (processImages env sub imgs posted fs).2.2 u →
      Reflects (processImages env sub imgs posted fs).2.1 env.today.format u) ∧
    (∀ u, Reflects (processImages env sub imgs posted fs).2.1 env.today.format u →
      u ∈ (processImages env sub imgs posted fs).1) := by
  induction imgs with
  | nil =>
      intro posted fs href
      exact ⟨fun u h => h, fun u h => absurd h (by simp [processImages, succCount]),
             fun u h => href u h⟩
  | cons img rest IH =>
      intro posted fs href
      by_cases hmem : img ∈ posted
      · simp only [processImages, if_pos hmem]
        exact IH posted fs href
      · simp only [processImages, if_neg hmem]
        rcases publish_spec env img ("From r/" ++ sub) posted fs with
          ⟨hp, heq⟩ | ⟨hnp, hpost, hfs, hcnt, hsv⟩
        · rw [heq]
          rw [save_posted_images_ok env hsave]
          have hrefl : ∀ u, Reflects (.parsed ⟨some (posted ++ [img]),
              some env.today.format⟩) env.today.format u ↔ u ∈ posted ++ [img] :=
            fun u => Reflects_parsed (posted ++ [img]) env.today.format u
          obtain ⟨ih1, ih2, ih3⟩ :=
            IH (posted ++ [img]) (.parsed ⟨some (posted ++ [img]), some env.today.format⟩)
              (fun u h => (hrefl u).1 h)
          refine ⟨fun u h => ?_, fun u h => ?_, ih3⟩
          · exact ih1 u ((hrefl u).2 (List.mem_append_left _ (href u h)))
          · by_cases hu : img = u
            · subst hu
              exact ih1 img ((hrefl img).2
                (List.mem_append_right _ (List.mem_singleton_self img)))
            · simp only [succCount_append, succCount_pub_success, if_neg hu] at h
              exact ih2 u (by omega)
        · rw [hpost, hfs]
          obtain ⟨ih1, ih2, ih3⟩ := IH posted fs href
          refine ⟨ih1, fun u h => ?_, ih3⟩
          simp only [succCount_append, hcnt u] at h
          exact ih2 u (by omega)

/-- The outer community loop: same four properties as
`processImages_basic`. -/
theorem processSubs_basic (env : Env) (subs : List String) :
    ∀ (posted : List String) (fs : FileState),
    (∀ u, u ∈ posted → u ∈ (processSubs env subs posted fs).1) ∧
    (∀ u, u ∈ posted → succCount (processSubs env subs posted fs).2.2 u = 0) ∧
    (∀ u, succCount (processSubs env subs posted fs).2.2 u ≤ 1) ∧
    (∀ u, 1 ≤ succCount (processSubs env subs posted fs).2.2 u →
      u ∈ (processSubs env subs posted fs).1) := by
  induction subs with
  | nil =>
      intro posted fs
      exact ⟨fun u hu => hu, fun u _ => rfl, fun u => by simp [processSubs, succCount],
             fun u h => absurd h (by simp [processSubs, succCount])⟩
  | cons sub rest IH =>
      intro posted fs
      simp only [processSubs]
      obtain ⟨p1, p2, p3, p4⟩ := processImages_basic env sub
        (fetch_images env sub upvoteThreshold 10) posted fs
      obtain ⟨q1, q2, q3, q4⟩ := IH
        (processImages env sub (fetch_images env sub upvoteThreshold 10) posted fs).1
        (processImages env sub (fetch_images env sub upvoteThreshold 10) posted fs).2.1
      refine ⟨fun u hu => q1 u (p1 u hu), fun u hu => ?_, fun u => ?_, fun u h => ?_⟩
      · simp only [succCount_append, p2 u hu, q2 u (p1 u hu)]
      · simp only [succCount_append]
        by_cases h1 : succCount (processImages env sub
            (fetch_images env sub upvoteThreshold 10) posted fs).2.2 u = 0
        · have := q3 u
          omega
        · have hle := p3 u
          have hmem := p4 u (by omega)
          have := q2 u hmem
          omega
      · simp only [succCount_append] at h
        by_cases h1 : succCount (processImages env sub
            (fetch_images env sub upvoteThreshold 10) posted fs).2.2 u = 0
        · exact q4 u (by omega)
        · exact q1 u (p4 u (by omega))

/-- The outer community loop with successful store writes: same three
properties as `processImages_store`. -/
theorem processSubs_store (env : Env) (hsave : env.saveOk = true)
    (subs : List String) :
    ∀ (posted : List String) (fs : FileState),
    (∀ u, Reflects fs env.today.format u → u ∈ posted) →
    (∀ u, Reflects fs env.today.format u →
      Reflects (processSubs env subs posted fs).2.1 env.today.format u) ∧
    (∀ u, 1 ≤ succCount (processSubs env subs posted fs).2.2 u →
      Reflects (processSubs env subs posted fs).2.1 env.today.format u) ∧
    (∀ u, Reflects (processSubs env subs posted fs).2.1 env.today.format u →
      u ∈ (processSubs env subs posted fs).1) := by
  induction subs with
  | nil =>
      intro posted fs href
      exact ⟨fun u h => h, fun u h => absurd h (by simp [processSubs, succCount]),
             fun u h => href u h⟩
  | cons sub rest IH =>
      intro posted fs href
      simp only [processSubs]
      obtain ⟨p1, p2, p3⟩ := processImages_store env sub hsave
        (fetch_images env sub upvoteThreshold 10) posted fs href
      obtain ⟨q1, q2, q3⟩ := IH
        (processImages env sub (fetch_images env sub upvoteThreshold 10) posted fs).1
        (processImages env sub (fetch_images env sub upvoteThreshold 10) posted fs).2.1
        p3
      refine ⟨fun u h => q1 u (p1 u h), fun u h => ?_, q3⟩
      simp only [succCount_append] at h
      by_cases h1 : succCount (processImages env sub
          (fetch_images env sub upvoteThreshold 10) posted fs).2.2 u = 0
      · exact q2 u (by omega)
      · have hm := processImages_basic env sub
          (fetch_images env sub upvoteThreshold 10) posted fs
        exact q1 u (p2 u (by omega))

@[simp]
theorem succCount_single_save (l : List String) (d u : String) :
    succCount [Event.saveStore l d] u = 0 := by
  simp [succCount_cons, isSuccessSend]

/-- One full run sends any given URL successfully at most once, whatever
the environment (the in-memory dedupe list alone enforces this). -/
theorem run_basic (env : Env) (fs : FileState) (u : String) :
    succCount (post_reddit_images env fs).2.2 u ≤ 1 := by
  simp only [post_reddit_images, succCount_append, clear_no_send]
  have := (processSubs_basic env subreddits (clear_old_images env fs).1
    (clear_old_images env fs).2.1).2.2.1 u
  omega

/-- One full run with successful store writes: URLs already recorded for
today are not sent and stay recorded, and every URL successfully sent
during the run is recorded afterwards. -/
theorem run_store (env : Env) (fs : FileState) (hsave : env.saveOk = true) :
    (∀ u, Reflects fs env.today.format u →
      succCount (post_reddit_images env fs).2.2 u = 0 ∧
      Reflects (post_reddit_images env fs).2.1 env.today.format u) ∧
    (∀ u, 1 ≤ succCount (post_reddit_images env fs).2.2 u →
      Reflects (post_reddit_images env fs).2.1 env.today.format u) := by
  by_cases hd : (load_posted_images fs).2 = env.today.format
  · have hc := (clear_spec env fs).1 hd
    simp only [post_reddit_images, hc, List.nil_append]
    have href : ∀ u, Reflects fs env.today.format u → u ∈ (load_posted_images fs).1 :=
      fun u h => h.1
    obtain ⟨s1, s2, s3⟩ :=
      processSubs_store env hsave subreddits (load_posted_images fs).1 fs href
    obtain ⟨b1, b2, b3, b4⟩ :=
      processSubs_basic env subreddits (load_posted_images fs).1 fs
    exact ⟨fun u h => ⟨b2 u (href u h), s1 u h⟩, s2⟩
  · have hc := (clear_spec env fs).2 hd
    simp only [post_reddit_images, hc]
    rw [save_posted_images_ok env hsave]
    have href : ∀ u,
        Reflects (.parsed ⟨some [], some env.today.format⟩) env.today.format u →
        u ∈ ([] : List String) :=
      fun u h => (Reflects_parsed [] env.today.format u).1 h
    obtain ⟨s1, s2, s3⟩ := processSubs_store env hsave subreddits []
      (.parsed ⟨some [], some env.today.format⟩) href
    refine ⟨fun u h => absurd h.2 hd, fun u h => ?_⟩
    apply s2 u
    simp only [succCount_append, succCount_single_save] at h
    omega

/-- Any sequence of same-day runs with successful store writes sends each
URL at most once in total; once a URL is recorded in the store for that
day it is never sent again and stays recorded. -/
theorem runDay_spec (day : Date) (envs : List Env) :
    ∀ (fs : FileState),
    (∀ e ∈ envs, e.saveOk = true ∧ e.today = day) →
    ∀ u, succCount (runDay envs fs).2 u ≤ 1 ∧
      (1 ≤ succCount (runDay envs fs).2 u →
        Reflects (runDay envs fs).1 day.format u) ∧
      (Reflects fs day.format u →
        succCount (runDay envs fs).2 u = 0 ∧
        Reflects (runDay envs fs).1 day.format u) := by
  induction envs with
  | nil =>
      intro fs h u
      exact ⟨by simp [runDay, succCount],
             fun h1 => absurd h1 (by simp [runDay, succCount]),
             fun h2 => ⟨rfl, h2⟩⟩
  | cons e rest IH =>
      intro fs h u
      have he := h e (List.mem_cons_self e rest)
      have hrest : ∀ e2 ∈ rest, e2.saveOk = true ∧ e2.today = day :=
        fun e2 he2 => h e2 (List.mem_cons_of_mem e he2)
      simp only [runDay]
      obtain ⟨rs1, rs2⟩ := run_store e fs he.1
      have hfmt : e.today.format = day.format := by rw [he.2]
      rw [hfmt] at rs1 rs2
      obtain ⟨d1, d2, d3⟩ := IH (post_reddit_images e fs).2.1 hrest u
      have hb := run_basic e fs u
      refine ⟨?_, ?_, ?_⟩
      · simp only [succCount_append]
        by_cases h1 : succCount (post_reddit_images e fs).2.2 u = 0
        · omega
        · have := (d3 (rs2 u (by omega))).1
          omega
      · simp only [succCount_append]
        intro hge
        by_cases h1 : succCount (post_reddit_images e fs).2.2 u = 0
        · exact d2 (by omega)
        · exact (d3 (rs2 u (by omega))).2
      · intro hrfs
        obtain ⟨hz, hrefl⟩ := rs1 u hrfs
        obtain ⟨hz2, hrefl2⟩ := d3 hrefl
        exact ⟨by simp only [succCount_append, hz, hz2], hrefl2⟩

/-- Claim C1: within one run a given URL is successfully sent to the
channel at most once, even if it appears in the fetch results of several
monitored communities (the URL is checked against the in-memory dedupe
list before each publish and appended on each confirmed send); and over
any sequence of runs on the same UTC day whose store writes succeed, a
given URL is still sent at most once in total. -/
theorem claim_C1_url_sent_at_most_once :
    (∀ (env : Env) (fs : FileState) (u : String),
      succCount (post_reddit_images env fs).2.2 u ≤ 1) ∧
    (∀ (day : Date) (envs : List Env) (fs : FileState) (u : String),
      (∀ e ∈ envs, e.saveOk = true ∧ e.today = day) →
      succCount (runDay envs fs).2 u ≤ 1) :=
  ⟨run_basic, fun day envs fs _ h => (runDay_spec day envs fs h _).1⟩

/-- Witness for C1: in the all-success environment — where the same URL
is returned by all three communities — the URL is sent exactly once in
one run, and exactly once across two same-day runs. -/
theorem claim_C1_witness :
    succCount (post_reddit_images wEnv .missing).2.2 "https://x/a.jpg" ≤ 1 ∧
    succCount (runDay [wEnv, wEnv] .missing).2 "https://x/a.jpg" ≤ 1 ∧
    succCount (post_reddit_images wEnv .missing).2.2 "https://x/a.jpg" = 1 ∧
    succCount (runDay [wEnv, wEnv] .missing).2 "https://x/a.jpg" = 1 :=
  ⟨claim_C1_url_sent_at_most_once.1 wEnv .missing "https://x/a.jpg",
   claim_C1_url_sent_at_most_once.2 wDate [wEnv, wEnv] .missing "https://x/a.jpg"
     (by
       intro e he
       simp only [List.mem_cons, List.not_mem_nil, or_false] at he
       rcases he with he | he <;> subst he <;> exact ⟨rfl, rfl⟩),
   by decide, by decide⟩

/-- The inner publish loop preserves freedom from duplicates of the
posted list: the publisher appends only URLs the loop has just checked
are absent. -/
theorem processImages_nodup (env : Env) (sub : String) (imgs : List String) :
    ∀ (posted : List String) (fs : FileState), posted.Nodup →
    (processImages env sub imgs posted fs).1.Nodup := by
  induction imgs with
  | nil => intro posted fs h; exact h
  | cons img rest IH =>
      intro posted fs h
      by_cases hmem : img ∈ posted
      · simp only [processImages, if_pos hmem]
        exact IH posted fs h
      · simp only [processImages, if_neg hmem]
        rcases publish_spec env img ("From r/" ++ sub) posted fs with
          ⟨_, heq⟩ | ⟨_, hpost, hfs, _, _⟩
        · rw [heq]
          apply IH
          exact h.append (List.nodup_singleton img)
            (fun a ha hb => hmem ((List.mem_singleton.1 hb) ▸ ha))
        · rw [hpost, hfs]
          exact IH posted fs h

/-- The outer community loop preserves freedom from duplicates. -/
theorem processSubs_nodup (env : Env) (subs : List String) :
    ∀ (posted : List String) (fs : FileState), posted.Nodup →
    (processSubs env subs posted fs).1.Nodup := by
  induction subs with
  | nil => intro posted fs h; exact h
  | cons sub rest IH =>
      intro posted fs h
      simp only [processSubs]
      exact IH _ _ (processImages_nodup env sub
        (fetch_images env sub upvoteThreshold 10) posted fs h)

/-- Claim C10: provided the image list loaded at the start of a run has
no duplicates, the in-memory posted list has no duplicates throughout
the run — at every loop step (the preservation statements) and at the
run's start and end. -/
theorem claim_C10_posted_nodup (env : Env) :
    (∀ (sub : String) (imgs posted : List String) (fs : FileState),
      posted.Nodup → (processImages env sub imgs posted fs).1.Nodup) ∧
    (∀ (subs posted : List String) (fs : FileState),
      posted.Nodup → (processSubs env subs posted fs).1.Nodup) ∧
    (∀ fs : FileState, (load_posted_images fs).1.Nodup →
      (clear_old_images env fs).1.Nodup ∧ (post_reddit_images env fs).1.Nodup) := by
  refine ⟨fun sub imgs posted fs h => processImages_nodup env sub imgs posted fs h,
          fun subs posted fs h => processSubs_nodup env subs posted fs h,
          fun fs h => ?_⟩
  have hc : (clear_old_images env fs).1.Nodup := by
    by_cases hd : (load_posted_images fs).2 = env.today.format
    · rw [(clear_spec env fs).1 hd]
      exact h
    · rw [(clear_spec env fs).2 hd]
      exact List.nodup_nil
  refine ⟨hc, ?_⟩
  simp only [post_reddit_images]
  exact processSubs_nodup env subreddits _ _ hc

/-- Witness for C10 starting from a missing store file. -/
theorem claim_C10_witness :
    (clear_old_images wEnv .missing).1.Nodup ∧
    (post_reddit_images wEnv .missing).1.Nodup :=
  (claim_C10_posted_nodup wEnv).2.2 .missing List.nodup_nil

end ScrappyBot
